import Mathlib

/-!
Verification of the LZ4 JNI bridge (`src/common/src/main/jni/lz4jni.c`).

The bridge functions `nCompressBound`, `nCompress` and `nDecompress` are
shallowly embedded below, following the C source line by line.  Java byte
arrays become `Option (List Nat)` (`none` is a NULL `jbyteArray`); `jint`
values are `Int`, and the C expression `srcOff + srcLen` (32-bit signed
addition, which wraps on overflow) is embedded as `wrap32 (srcOff + srcLen)`.
`GetByteArrayElements` can fail (return NULL); the two failure oracles are
packaged in `JniEnv`.  Every acquisition, release (with its commit mode) and
native invocation is recorded in an event trace so that the pin/release
discipline is a statement about the function's output.

The native LZ4 primitives (`LZ4_compressBound`, `LZ4_compress_default`,
`LZ4_decompress_safe`) live in the wrapped library, outside this repository's
sources, and are modelled from the spec.
-/

set_option autoImplicit false

namespace LZ4Jni

/-- 32-bit signed (two's complement) wrap-around, the effective behaviour of
`jint` addition in the C source. -/
def wrap32 (x : Int) : Int := (x + 2 ^ 31) % 2 ^ 32 - 2 ^ 31

/-- Modelled from the spec: the native codec's worst-case bound
(`LZ4_compressBound`), "a deterministic function of input size only" under an
LZ4-style worst-case expansion formula; it satisfies the spec's promised
properties (`bound n ≥ n`, monotone). -/
def LZ4_compressBound (isize : Int) : Int := isize + isize / 255 + 16

/-- Modelled from the spec: the length header of the modelled compressed
stream, four little-endian base-256 digits. -/
def encodeLen (L : Nat) : List Nat :=
  [L % 256, L / 256 % 256, L / 65536 % 256, L / 16777216 % 256]

/-- Modelled from the spec: decode the four-byte length header. -/
def decodeLen (s : List Nat) : Nat :=
  match s with
  | [b0, b1, b2, b3] => b0 + 256 * b1 + 65536 * b2 + 16777216 * b3
  | _ => 0

/-- Modelled from the spec: the compressed image of a byte sequence — a
length header followed by the literals.  Its size `L + 4` never exceeds
`LZ4_compressBound L = L + L / 255 + 16`. -/
def lz4Encode (D : List Nat) : List Nat := encodeLen D.length ++ D

/-- Modelled from the spec: structural validation and decoding of a
compressed stream.  A stream is valid iff it is `lz4Encode` of some byte
sequence: at least four header bytes, and a payload whose length matches the
header.  Returns the decoded payload, or `none` for a corrupted, truncated or
malformed stream. -/
def decodeStream (s : List Nat) : Option (List Nat) :=
  if 4 ≤ s.length ∧ (s.drop 4).length = decodeLen (s.take 4) then
    some (s.drop 4)
  else none

/-- Modelled from the spec: `LZ4_compress_default` — single-shot bounded
compression.  Produces the compressed bytes when they fit in `dstCapacity`,
and signals insufficient capacity (mapped to the negative sentinel by the
bridge) otherwise. -/
def LZ4_compress_default (srcView : List Nat) (dstCapacity : Nat) :
    Option (List Nat) :=
  let out := lz4Encode srcView
  if out.length ≤ dstCapacity then some out else none

/-- Modelled from the spec: `LZ4_decompress_safe` — capacity-checked
decompression.  Fails on a stream that does not pass the structural checks,
or whose implied output exceeds `dstCapacity`; never writes past the declared
capacity. -/
def LZ4_decompress_safe (srcView : List Nat) (dstCapacity : Nat) :
    Option (List Nat) :=
  match decodeStream srcView with
  | some payload => if payload.length ≤ dstCapacity then some payload else none
  | none => none

/-- Commit mode of `ReleaseByteArrayElements`: `commit` is mode `0`,
`abort` is `JNI_ABORT`. -/
inductive Mode where
  | commit
  | abort
deriving DecidableEq

/-- Observable JNI events of one bridge call: view acquisitions, the native
codec invocation, and view releases with their commit mode. -/
inductive Event where
  | getSrc
  | getDst
  | native
  | relSrc (m : Mode)
  | relDst (m : Mode)
deriving DecidableEq

/-- Oracles for the two `GetByteArrayElements` calls: `true` means the JVM
hands out a view, `false` means it returns NULL. -/
structure JniEnv where
  srcAcqOk : Bool
  dstAcqOk : Bool
deriving DecidableEq

/-- The environment in which both view acquisitions succeed. -/
def okEnv : JniEnv := ⟨true, true⟩

/-- Result of one bridge call: the `jint` return value, the final backing
contents of the two arrays, the JNI event trace, and an out-of-bounds marker.
`oob` is `true` exactly when the native primitive was invoked with a region
whose mathematical `offset + length` exceeds the array's real length — a
state only reachable by wrapping the 32-bit bounds check.  On such a call
the C program performs an out-of-range native memory access and its
behaviour is undefined: the `ret`, `srcArr` and `dstArr` fields then hold
nominal model values (the arrays are carried over unmodified) and stand for
no guarantee about the real program's result or memory. -/
structure BridgeOut where
  ret : Int
  srcArr : Option (List Nat)
  dstArr : Option (List Nat)
  trace : List Event
  oob : Bool
deriving DecidableEq

/-- Embedding of `Java_..._LZ4Codec_nCompressBound` (lz4jni.c lines 13-23):
reject a negative input size with `-1`, otherwise defer to the native bound
primitive. -/
def nCompressBound (inputSize : Int) : Int :=
  if inputSize < 0 then -1 else LZ4_compressBound inputSize

/-- Embedding of `Java_..._LZ4Codec_nCompress` (lz4jni.c lines 36-85).  The
branch structure follows the C source: NULL-array check, negativity check,
bounds check (with the C source's wrapping 32-bit addition), the two view
acquisitions with their failure paths, the native call, and the releases
(source with `JNI_ABORT`, destination with commit mode `0`).  When the
bounds check was only passed by 32-bit wrap-around — the native call's
regions mathematically exceed the arrays — the C program's pointer
arithmetic reads or writes out of range (undefined behaviour); the model
marks that call `oob := true` and carries the arrays over unmodified rather
than inventing contents for an undefined write. -/
def nCompress (env : JniEnv) (srcArray : Option (List Nat))
    (srcOff srcLen : Int) (dstArray : Option (List Nat))
    (dstOff maxDestLen : Int) : BridgeOut :=
  match srcArray, dstArray with
  | some srcData, some dstData =>
    if srcLen < 0 ∨ maxDestLen < 0 ∨ srcOff < 0 ∨ dstOff < 0 then
      ⟨-1, some srcData, some dstData, [], false⟩
    else if wrap32 (srcOff + srcLen) > (srcData.length : Int)
        ∨ wrap32 (dstOff + maxDestLen) > (dstData.length : Int) then
      ⟨-1, some srcData, some dstData, [], false⟩
    else if env.srcAcqOk = false then
      ⟨-1, some srcData, some dstData, [], false⟩
    else if env.dstAcqOk = false then
      ⟨-1, some srcData, some dstData, [.getSrc, .relSrc .abort], false⟩
    else
      let srcView := (srcData.drop srcOff.toNat).take srcLen.toNat
      if srcData.length < srcOff.toNat + srcLen.toNat
          ∨ dstData.length < dstOff.toNat + maxDestLen.toNat then
        match LZ4_compress_default srcView maxDestLen.toNat with
        | some out =>
          ⟨(out.length : Int), some srcData, some dstData,
            [.getSrc, .getDst, .native, .relSrc .abort, .relDst .commit], true⟩
        | none =>
          ⟨-1, some srcData, some dstData,
            [.getSrc, .getDst, .native, .relSrc .abort, .relDst .commit], true⟩
      else
        match LZ4_compress_default srcView maxDestLen.toNat with
        | some out =>
          ⟨(out.length : Int), some srcData,
            some (dstData.take dstOff.toNat ++ out
              ++ dstData.drop (dstOff.toNat + out.length)),
            [.getSrc, .getDst, .native, .relSrc .abort, .relDst .commit], false⟩
        | none =>
          ⟨-1, some srcData, some dstData,
            [.getSrc, .getDst, .native, .relSrc .abort, .relDst .commit], false⟩
  | _, _ => ⟨-1, srcArray, dstArray, [], false⟩

/-- Embedding of `Java_..._LZ4Codec_nDecompress` (lz4jni.c lines 98-147),
identical validation, release and out-of-bounds-marking structure to
`nCompress`, dispatching to the safe decompression primitive. -/
def nDecompress (env : JniEnv) (srcArray : Option (List Nat))
    (srcOff srcLen : Int) (dstArray : Option (List Nat))
    (dstOff dstCap : Int) : BridgeOut :=
  match srcArray, dstArray with
  | some srcData, some dstData =>
    if srcLen < 0 ∨ dstCap < 0 ∨ srcOff < 0 ∨ dstOff < 0 then
      ⟨-1, some srcData, some dstData, [], false⟩
    else if wrap32 (srcOff + srcLen) > (srcData.length : Int)
        ∨ wrap32 (dstOff + dstCap) > (dstData.length : Int) then
      ⟨-1, some srcData, some dstData, [], false⟩
    else if env.srcAcqOk = false then
      ⟨-1, some srcData, some dstData, [], false⟩
    else if env.dstAcqOk = false then
      ⟨-1, some srcData, some dstData, [.getSrc, .relSrc .abort], false⟩
    else
      let srcView := (srcData.drop srcOff.toNat).take srcLen.toNat
      if srcData.length < srcOff.toNat + srcLen.toNat
          ∨ dstData.length < dstOff.toNat + dstCap.toNat then
        match LZ4_decompress_safe srcView dstCap.toNat with
        | some payload =>
          ⟨(payload.length : Int), some srcData, some dstData,
            [.getSrc, .getDst, .native, .relSrc .abort, .relDst .commit], true⟩
        | none =>
          ⟨-1, some srcData, some dstData,
            [.getSrc, .getDst, .native, .relSrc .abort, .relDst .commit], true⟩
      else
        match LZ4_decompress_safe srcView dstCap.toNat with
        | some payload =>
          ⟨(payload.length : Int), some srcData,
            some (dstData.take dstOff.toNat ++ payload
              ++ dstData.drop (dstOff.toNat + payload.length)),
            [.getSrc, .getDst, .native, .relSrc .abort, .relDst .commit], false⟩
        | none =>
          ⟨-1, some srcData, some dstData,
            [.getSrc, .getDst, .native, .relSrc .abort, .relDst .commit], false⟩
  | _, _ => ⟨-1, srcArray, dstArray, [], false⟩

/-- Does an event count as acquiring the source view? -/
def isGetSrc : Event → Bool
  | .getSrc => true
  | _ => false

/-- Does an event count as acquiring the destination view? -/
def isGetDst : Event → Bool
  | .getDst => true
  | _ => false

/-- Does an event count as releasing the source view (any mode)? -/
def isRelSrc : Event → Bool
  | .relSrc _ => true
  | _ => false

/-- Does an event count as releasing the destination view (any mode)? -/
def isRelDst : Event → Bool
  | .relDst _ => true
  | _ => false

/-- The view pin/release discipline, as a property of one call's event
trace: every acquired view is released exactly once (acquisition and release
counts agree per buffer), the source view is never released with a commit,
and the destination view is never released with `JNI_ABORT`. -/
def goodTrace (t : List Event) : Prop :=
  t.countP isGetSrc = t.countP isRelSrc ∧
  t.countP isGetDst = t.countP isRelDst ∧
  Event.relSrc Mode.commit ∉ t ∧ Event.relDst Mode.abort ∉ t

/-! ### Helper lemmas -/

theorem wrap32_eq_of_lt {x : Int} (h0 : 0 ≤ x) (h1 : x < 2 ^ 31) :
    wrap32 x = x := by
  unfold wrap32
  rw [Int.emod_eq_of_lt (by omega) (by omega)]
  omega

theorem length_encodeLen (L : Nat) : (encodeLen L).length = 4 := rfl

theorem length_lz4Encode (D : List Nat) :
    (lz4Encode D).length = 4 + D.length := by
  simp [lz4Encode, encodeLen]
  omega

theorem decodeLen_encodeLen (L : Nat) (h : L < 2 ^ 32) :
    decodeLen (encodeLen L) = L := by
  show L % 256 + 256 * (L / 256 % 256) + 65536 * (L / 65536 % 256)
      + 16777216 * (L / 16777216 % 256) = L
  omega

theorem decodeStream_lz4Encode (D : List Nat) (h : D.length < 2 ^ 32) :
    decodeStream (lz4Encode D) = some D := by
  have htake : (lz4Encode D).take 4 = encodeLen D.length := by
    have := List.take_left (encodeLen D.length) D
    rwa [length_encodeLen] at this
  have hdrop : (lz4Encode D).drop 4 = D := by
    have := List.drop_left (encodeLen D.length) D
    rwa [length_encodeLen] at this
  unfold decodeStream
  rw [htake, hdrop, decodeLen_encodeLen D.length h, if_pos]
  refine ⟨?_, rfl⟩
  rw [length_lz4Encode]
  omega

/-! ### Claims -/

/-- Claim C4: for every `n ≥ 0`, `compute_bound(n) ≥ n`, and `compute_bound`
is monotonically non-decreasing on the non-negative inputs. -/
theorem nCompressBound_ge_and_mono (n : Int) (hn : 0 ≤ n) :
    n ≤ nCompressBound n ∧
      ∀ m : Int, 0 ≤ m → m ≤ n → nCompressBound m ≤ nCompressBound n := by
  constructor
  · unfold nCompressBound LZ4_compressBound
    rw [if_neg (by omega)]
    have : 0 ≤ n / 255 := Int.ediv_nonneg hn (by norm_num)
    omega
  · intro m hm hmn
    unfold nCompressBound LZ4_compressBound
    rw [if_neg (by omega), if_neg (by omega)]
    have : m / 255 ≤ n / 255 := Int.ediv_le_ediv (by norm_num) hmn
    omega

/-- Witness for C4 at `n = 10`. -/
theorem nCompressBound_ge_and_mono_witness :
    (0 : Int) ≤ 10 ∧
      ((10 : Int) ≤ nCompressBound 10 ∧
        ∀ m : Int, 0 ≤ m → m ≤ 10 → nCompressBound m ≤ nCompressBound 10) :=
  ⟨by decide, nCompressBound_ge_and_mono 10 (by decide)⟩

/-- Claim C2 (refuted — code bug): with `srcOff = srcLen = 2^30` against a
10-byte source array, the mathematical sum `srcOff + srcLen = 2^31` exceeds
the capacity 10, yet the C source's 32-bit signed addition wraps to `-2^31`,
the bounds check passes, both views are acquired and the native codec is
invoked; the call even returns a non-negative count instead of the negative
sentinel. -/
theorem nCompress_overflow_bypasses_bounds_check :
    ((1073741824 : Int) + 1073741824 > (10 : Int)) ∧
      wrap32 (1073741824 + 1073741824) = -2147483648 ∧
      (nCompress okEnv (some (List.replicate 10 0)) 1073741824 1073741824
        (some (List.replicate 10 0)) 0 10).ret = 4 ∧
      Event.native ∈ (nCompress okEnv (some (List.replicate 10 0)) 1073741824
        1073741824 (some (List.replicate 10 0)) 0 10).trace := by
  decide

theorem goodTrace_nil : goodTrace ([] : List Event) :=
  ⟨by decide, by decide, by decide, by decide⟩

theorem goodTrace_srcOnly :
    goodTrace [Event.getSrc, Event.relSrc Mode.abort] :=
  ⟨by decide, by decide, by decide, by decide⟩

theorem goodTrace_full :
    goodTrace [Event.getSrc, Event.getDst, Event.native,
      Event.relSrc Mode.abort, Event.relDst Mode.commit] :=
  ⟨by decide, by decide, by decide, by decide⟩

/-- Claim C7: on every exit path of `nCompress` and `nDecompress`, each
acquired buffer view is released exactly once (including the path where the
second acquisition fails after the first succeeded), the source view is only
ever released with `JNI_ABORT` (never committing changes to the source), and
the destination view is only ever released with the committing mode `0`. -/
theorem release_discipline (env : JniEnv) (s d : Option (List Nat))
    (so sl do0 dl : Int) :
    goodTrace (nCompress env s so sl d do0 dl).trace ∧
    goodTrace (nDecompress env s so sl d do0 dl).trace := by
  constructor <;>
  · cases s with
    | none => cases d <;> exact goodTrace_nil
    | some sd =>
      cases d with
      | none => exact goodTrace_nil
      | some dd =>
        simp only [nCompress, nDecompress]
        repeat' split
        all_goals first
          | exact goodTrace_nil
          | exact goodTrace_srcOnly
          | exact goodTrace_full

/-- Claim C8 (refuted — code bug): the frame property "only the destination
buffer's backing storage may be modified, the source is never mutated" fails
on the program.  With a 10-byte destination, `dstOff = 1` and
`maxDestLen = 2^31 - 1`, the 32-bit sum `dstOff + maxDestLen` wraps to
`-2^31`, the bounds check at lz4jni.c:53 passes, and the native codec is
invoked with `dst + 1` and declared capacity `2^31 - 1`: the C program may
then write far past the 10-byte destination's backing storage (clobbering
the source array or any adjacent memory — undefined behaviour), which the
model records as `oob = true` on an exit that reaches the native call.  The
same bypass exists in `nDecompress` (lz4jni.c:115). -/
theorem oob_write_reachable :
    ((1 : Int) + 2147483647 > (10 : Int)) ∧
      ((nCompress okEnv (some (List.replicate 10 0)) 0 1
        (some (List.replicate 10 0)) 1 2147483647).oob = true ∧
       Event.native ∈ (nCompress okEnv (some (List.replicate 10 0)) 0 1
        (some (List.replicate 10 0)) 1 2147483647).trace) ∧
      ((nDecompress okEnv (some (List.replicate 10 0)) 0 1
        (some (List.replicate 10 0)) 1 2147483647).oob = true ∧
       Event.native ∈ (nDecompress okEnv (some (List.replicate 10 0)) 0 1
        (some (List.replicate 10 0)) 1 2147483647).trace) := by
  decide

/-- Claim C10: every failure detected by the bridge itself — every exit on
which the native codec was never invoked — returns the specific value `-1`,
not merely some negative value; likewise `nCompressBound` on a negative
input size. -/
theorem bridge_failures_minus_one (env : JniEnv) (s d : Option (List Nat))
    (so sl do0 dl isz : Int) :
    (Event.native ∉ (nCompress env s so sl d do0 dl).trace →
      (nCompress env s so sl d do0 dl).ret = -1) ∧
    (Event.native ∉ (nDecompress env s so sl d do0 dl).trace →
      (nDecompress env s so sl d do0 dl).ret = -1) ∧
    (isz < 0 → nCompressBound isz = -1) := by
  refine ⟨?_, ?_, ?_⟩
  · cases s with
    | none => cases d <;> exact fun _ => rfl
    | some sd =>
      cases d with
      | none => exact fun _ => rfl
      | some dd =>
        simp only [nCompress]
        repeat' split
        all_goals intro hna
        all_goals first
          | rfl
          | (exfalso; exact hna (by simp))
  · cases s with
    | none => cases d <;> exact fun _ => rfl
    | some sd =>
      cases d with
      | none => exact fun _ => rfl
      | some dd =>
        simp only [nDecompress]
        repeat' split
        all_goals intro hna
        all_goals first
          | rfl
          | (exfalso; exact hna (by simp))
  · intro h
    unfold nCompressBound
    rw [if_pos h]

/-- Witness for C10: a NULL source array makes `nCompress` fail without a
native call, and the returned value is exactly `-1`; `nCompressBound (-3)`
is exactly `-1`. -/
theorem bridge_failures_minus_one_witness :
    (Event.native ∉ (nCompress okEnv none 0 0 (some [1]) 0 0).trace ∧
      (nCompress okEnv none 0 0 (some [1]) 0 0).ret = -1) ∧
    ((-3 : Int) < 0 ∧ nCompressBound (-3) = -1) :=
  ⟨⟨by decide,
    (bridge_failures_minus_one okEnv none (some [1]) 0 0 0 0 (-3)).1 (by decide)⟩,
    by decide,
    (bridge_failures_minus_one okEnv none (some [1]) 0 0 0 0 (-3)).2.2 (by decide)⟩

/-- Claim C6: an invalid argument — NULL buffer handle, or any negative
offset, length or input size — makes `nCompress`, `nDecompress` and
`nCompressBound` return the sentinel with an empty event trace: no view is
acquired and the native codec is never invoked. -/
theorem invalid_args_fail_fast (env : JniEnv) (s d : Option (List Nat))
    (so sl do0 dl isz : Int)
    (h : s = none ∨ d = none ∨ so < 0 ∨ sl < 0 ∨ do0 < 0 ∨ dl < 0)
    (hisz : isz < 0) :
    ((nCompress env s so sl d do0 dl).ret = -1 ∧
      (nCompress env s so sl d do0 dl).trace = []) ∧
    ((nDecompress env s so sl d do0 dl).ret = -1 ∧
      (nDecompress env s so sl d do0 dl).trace = []) ∧
    nCompressBound isz = -1 := by
  refine ⟨?_, ?_, ?_⟩
  · cases s with
    | none => cases d <;> exact ⟨rfl, rfl⟩
    | some sd =>
      cases d with
      | none => exact ⟨rfl, rfl⟩
      | some dd =>
        have hc : sl < 0 ∨ dl < 0 ∨ so < 0 ∨ do0 < 0 := by
          rcases h with h | h | h | h | h | h <;> simp_all
        simp only [nCompress]
        rw [if_pos hc]
        exact ⟨rfl, rfl⟩
  · cases s with
    | none => cases d <;> exact ⟨rfl, rfl⟩
    | some sd =>
      cases d with
      | none => exact ⟨rfl, rfl⟩
      | some dd =>
        have hc : sl < 0 ∨ dl < 0 ∨ so < 0 ∨ do0 < 0 := by
          rcases h with h | h | h | h | h | h <;> simp_all
        simp only [nDecompress]
        rw [if_pos hc]
        exact ⟨rfl, rfl⟩
  · unfold nCompressBound
    rw [if_pos hisz]

/-- Witness for C6 at a negative source offset. -/
theorem invalid_args_fail_fast_witness :
    (((some [5] : Option (List Nat)) = none ∨ (some [1] : Option (List Nat)) = none ∨
      (-2 : Int) < 0 ∨ (1 : Int) < 0 ∨ (0 : Int) < 0 ∨ (1 : Int) < 0) ∧ (-7 : Int) < 0) ∧
    (((nCompress okEnv (some [5]) (-2) 1 (some [1]) 0 1).ret = -1 ∧
      (nCompress okEnv (some [5]) (-2) 1 (some [1]) 0 1).trace = []) ∧
     ((nDecompress okEnv (some [5]) (-2) 1 (some [1]) 0 1).ret = -1 ∧
      (nDecompress okEnv (some [5]) (-2) 1 (some [1]) 0 1).trace = []) ∧
     nCompressBound (-7) = -1) :=
  ⟨⟨by decide, by decide⟩,
    invalid_args_fail_fast okEnv (some [5]) (some [1]) (-2) 1 0 1 (-7)
      (by decide) (by decide)⟩

/-- Claim C9: with non-null buffers, non-negative offsets and lengths, and
`offset + length` exactly equal to the buffer's capacity for both regions
(capacities in the 31-bit range of a Java array length), the bounds
validation passes and the native codec is invoked — no off-by-one rejection
at the exact-capacity boundary, for compression and decompression alike. -/
theorem exact_capacity_accepted (sd dd : List Nat) (so sl do0 dl : Int)
    (hso : 0 ≤ so) (hsl : 0 ≤ sl) (hdo : 0 ≤ do0) (hdl : 0 ≤ dl)
    (hs : so + sl = (sd.length : Int)) (hd : do0 + dl = (dd.length : Int))
    (hslen : (sd.length : Int) < 2 ^ 31) (hdlen : (dd.length : Int) < 2 ^ 31) :
    Event.native ∈ (nCompress okEnv (some sd) so sl (some dd) do0 dl).trace ∧
    Event.native ∈ (nDecompress okEnv (some sd) so sl (some dd) do0 dl).trace := by
  have hw1 : wrap32 (so + sl) = so + sl := wrap32_eq_of_lt (by omega) (by omega)
  have hw2 : wrap32 (do0 + dl) = do0 + dl := wrap32_eq_of_lt (by omega) (by omega)
  constructor
  · simp only [nCompress]
    rw [if_neg (by omega), if_neg (by rw [hw1, hw2]; omega),
      if_neg (by decide), if_neg (by decide)]
    repeat' split
    all_goals simp
  · simp only [nDecompress]
    rw [if_neg (by omega), if_neg (by rw [hw1, hw2]; omega),
      if_neg (by decide), if_neg (by decide)]
    repeat' split
    all_goals simp

/-- Witness for C9: source `[1,2,3,4]` with offset 1, length 3 (1 + 3 = 4)
and a 10-byte destination with offset 2, length 8 (2 + 8 = 10) reach the
native call in both operations. -/
theorem exact_capacity_accepted_witness :
    ((0 : Int) ≤ 1 ∧ (0 : Int) ≤ 3 ∧ (0 : Int) ≤ 2 ∧ (0 : Int) ≤ 8 ∧
      (1 : Int) + 3 = (([1, 2, 3, 4] : List Nat).length : Int) ∧
      (2 : Int) + 8 = ((List.replicate 10 0 : List Nat).length : Int) ∧
      (([1, 2, 3, 4] : List Nat).length : Int) < 2 ^ 31 ∧
      ((List.replicate 10 0 : List Nat).length : Int) < 2 ^ 31) ∧
    (Event.native ∈ (nCompress okEnv (some [1, 2, 3, 4]) 1 3
        (some (List.replicate 10 0)) 2 8).trace ∧
      Event.native ∈ (nDecompress okEnv (some [1, 2, 3, 4]) 1 3
        (some (List.replicate 10 0)) 2 8).trace) :=
  ⟨by decide,
    exact_capacity_accepted [1, 2, 3, 4] (List.replicate 10 0) 1 3 2 8
      (by decide) (by decide) (by decide) (by decide) (by decide) (by decide)
      (by decide) (by decide)⟩

/-- Claim C1: a `compress` call with valid non-null regions whose destination
region is too small to hold the compressed result returns a strictly
negative value, under any view-acquisition environment. -/
theorem compress_dest_too_small (env : JniEnv) (sd dd : List Nat)
    (so sl do0 dl : Int)
    (hso : 0 ≤ so) (hsl : 0 ≤ sl) (hdo : 0 ≤ do0) (hdl : 0 ≤ dl)
    (hs : so + sl ≤ (sd.length : Int)) (hd : do0 + dl ≤ (dd.length : Int))
    (hslen : (sd.length : Int) < 2 ^ 31) (hdlen : (dd.length : Int) < 2 ^ 31)
    (hsmall : dl < ((lz4Encode ((sd.drop so.toNat).take sl.toNat)).length : Int)) :
    (nCompress env (some sd) so sl (some dd) do0 dl).ret < 0 := by
  have hw1 : wrap32 (so + sl) = so + sl := wrap32_eq_of_lt (by omega) (by omega)
  have hw2 : wrap32 (do0 + dl) = do0 + dl := wrap32_eq_of_lt (by omega) (by omega)
  simp only [nCompress]
  rw [if_neg (by omega), if_neg (by rw [hw1, hw2]; omega)]
  split
  · simp
  split
  · simp
  rw [if_neg (by omega)]
  cases hq : LZ4_compress_default ((sd.drop so.toNat).take sl.toNat) dl.toNat with
  | none => simp [hq]
  | some out =>
    exfalso
    simp only [LZ4_compress_default] at hq
    split at hq
    · omega
    · cases hq

/-- Witness for C1: compressing `[1,2,3]` (compressed size 7) into a 2-byte
destination returns a negative value. -/
theorem compress_dest_too_small_witness :
    ((0 : Int) ≤ 0 ∧ (0 : Int) ≤ 3 ∧ (0 : Int) ≤ 0 ∧ (0 : Int) ≤ 2 ∧
      (0 : Int) + 3 ≤ (([1, 2, 3] : List Nat).length : Int) ∧
      (0 : Int) + 2 ≤ (([0, 0] : List Nat).length : Int) ∧
      (([1, 2, 3] : List Nat).length : Int) < 2 ^ 31 ∧
      (([0, 0] : List Nat).length : Int) < 2 ^ 31 ∧
      (2 : Int) < ((lz4Encode ((([1, 2, 3] : List Nat).drop (0 : Int).toNat).take
        (3 : Int).toNat)).length : Int)) ∧
    (nCompress okEnv (some [1, 2, 3]) 0 3 (some [0, 0]) 0 2).ret < 0 :=
  ⟨by decide,
    compress_dest_too_small okEnv [1, 2, 3] [0, 0] 0 3 0 2
      (by decide) (by decide) (by decide) (by decide) (by decide) (by decide)
      (by decide) (by decide) (by decide)⟩

/-- Claim C5: a `decompress` call with valid regions whose source region's
content is not a valid compressed stream (fails the structural checks:
corrupted, truncated or malformed) returns a strictly negative value — never
a positive byte count — under any view-acquisition environment. -/
theorem decompress_corrupt_neg (env : JniEnv) (sd dd : List Nat)
    (so sl do0 dl : Int)
    (hso : 0 ≤ so) (hsl : 0 ≤ sl) (hdo : 0 ≤ do0) (hdl : 0 ≤ dl)
    (hs : so + sl ≤ (sd.length : Int)) (hd : do0 + dl ≤ (dd.length : Int))
    (hslen : (sd.length : Int) < 2 ^ 31) (hdlen : (dd.length : Int) < 2 ^ 31)
    (hbad : decodeStream ((sd.drop so.toNat).take sl.toNat) = none) :
    (nDecompress env (some sd) so sl (some dd) do0 dl).ret < 0 := by
  have hw1 : wrap32 (so + sl) = so + sl := wrap32_eq_of_lt (by omega) (by omega)
  have hw2 : wrap32 (do0 + dl) = do0 + dl := wrap32_eq_of_lt (by omega) (by omega)
  simp only [nDecompress]
  rw [if_neg (by omega), if_neg (by rw [hw1, hw2]; omega)]
  split
  · simp
  split
  · simp
  rw [if_neg (by omega)]
  have hq : LZ4_decompress_safe ((sd.drop so.toNat).take sl.toNat) dl.toNat
      = none := by
    simp only [LZ4_decompress_safe]
    rw [hbad]
  rw [hq]
  simp

/-- Witness for C5: decompressing the 3-byte stream `[9,9,9]` (shorter than
any header, hence structurally invalid) returns a negative value. -/
theorem decompress_corrupt_neg_witness :
    ((0 : Int) ≤ 0 ∧ (0 : Int) ≤ 3 ∧ (0 : Int) ≤ 0 ∧ (0 : Int) ≤ 3 ∧
      (0 : Int) + 3 ≤ (([9, 9, 9] : List Nat).length : Int) ∧
      (0 : Int) + 3 ≤ (([0, 0, 0] : List Nat).length : Int) ∧
      (([9, 9, 9] : List Nat).length : Int) < 2 ^ 31 ∧
      (([0, 0, 0] : List Nat).length : Int) < 2 ^ 31 ∧
      decodeStream ((([9, 9, 9] : List Nat).drop (0 : Int).toNat).take
        (3 : Int).toNat) = none) ∧
    (nDecompress okEnv (some [9, 9, 9]) 0 3 (some [0, 0, 0]) 0 3).ret < 0 :=
  ⟨by decide,
    decompress_corrupt_neg okEnv [9, 9, 9] [0, 0, 0] 0 3 0 3
      (by decide) (by decide) (by decide) (by decide) (by decide) (by decide)
      (by decide) (by decide) (by decide)⟩

theorem nCompress_full (D : List Nat) (h : D.length ≤ 2 ^ 30) :
    nCompress okEnv (some D) 0 (D.length : Int)
      (some (List.replicate (nCompressBound (D.length : Int)).toNat 0)) 0
      (nCompressBound (D.length : Int)) =
    ⟨((lz4Encode D).length : Int), some D,
      some (lz4Encode D ++ List.replicate
        ((nCompressBound (D.length : Int)).toNat - (lz4Encode D).length) 0),
      [Event.getSrc, Event.getDst, Event.native, Event.relSrc Mode.abort,
        Event.relDst Mode.commit], false⟩ := by
  have hL : (D.length : Int) ≤ 2 ^ 30 := by exact_mod_cast h
  have hBval : nCompressBound (D.length : Int)
      = (D.length : Int) + (D.length : Int) / 255 + 16 := by
    unfold nCompressBound LZ4_compressBound
    rw [if_neg (by omega)]
  have hq : 0 ≤ (D.length : Int) / 255 := Int.ediv_nonneg (by omega) (by norm_num)
  have hBpos : 0 ≤ nCompressBound (D.length : Int) := by omega
  have hBlt : nCompressBound (D.length : Int) < 2 ^ 31 := by omega
  have hBtoNat : (((nCompressBound (D.length : Int)).toNat : Int))
      = nCompressBound (D.length : Int) := Int.toNat_of_nonneg hBpos
  have hw1 : wrap32 (0 + (D.length : Int)) = 0 + (D.length : Int) :=
    wrap32_eq_of_lt (by omega) (by omega)
  have hw2 : wrap32 (0 + nCompressBound (D.length : Int))
      = 0 + nCompressBound (D.length : Int) :=
    wrap32_eq_of_lt (by omega) (by omega)
  have hfit : (lz4Encode D).length ≤ (nCompressBound (D.length : Int)).toNat := by
    rw [length_lz4Encode]; omega
  have hcd : LZ4_compress_default D (nCompressBound (D.length : Int)).toNat
      = some (lz4Encode D) := by
    simp only [LZ4_compress_default]
    rw [if_pos hfit]
  simp only [nCompress, List.length_replicate]
  rw [if_neg (by omega), if_neg (by rw [hw1, hw2, hBtoNat]; omega),
    if_neg (by decide), if_neg (by decide)]
  simp only [Int.toNat_natCast, Int.toNat_zero, List.drop_zero, List.take_length]
  rw [if_neg (by omega), hcd]
  simp [List.drop_replicate]

theorem nDecompress_of_encode (D : List Nat) (h : D.length ≤ 2 ^ 30) :
    nDecompress okEnv (some (lz4Encode D)) 0 ((lz4Encode D).length : Int)
      (some (List.replicate D.length 0)) 0 (D.length : Int) =
    ⟨(D.length : Int), some (lz4Encode D), some D,
      [Event.getSrc, Event.getDst, Event.native, Event.relSrc Mode.abort,
        Event.relDst Mode.commit], false⟩ := by
  have hL : (D.length : Int) ≤ 2 ^ 30 := by exact_mod_cast h
  have hlen : (lz4Encode D).length = 4 + D.length := length_lz4Encode D
  have hlenI : ((lz4Encode D).length : Int) = 4 + (D.length : Int) := by
    rw [hlen]; push_cast; ring
  have hw1 : wrap32 (0 + ((lz4Encode D).length : Int))
      = 0 + ((lz4Encode D).length : Int) :=
    wrap32_eq_of_lt (by omega) (by omega)
  have hw2 : wrap32 (0 + (D.length : Int)) = 0 + (D.length : Int) :=
    wrap32_eq_of_lt (by omega) (by omega)
  have hds : decodeStream (lz4Encode D) = some D :=
    decodeStream_lz4Encode D (by omega)
  have hsafe : LZ4_decompress_safe (lz4Encode D) D.length = some D := by
    simp only [LZ4_decompress_safe]
    rw [hds]
    simp
  simp only [nDecompress, List.length_replicate]
  rw [if_neg (by omega), if_neg (by rw [hw1, hw2]; omega),
    if_neg (by decide), if_neg (by decide)]
  simp only [Int.toNat_natCast, Int.toNat_zero, List.drop_zero, List.take_length]
  rw [if_neg (by omega), hsafe]
  simp [List.drop_replicate]

/-- Claim C3: round-trip identity — compressing any byte sequence `D` (of
any length representable alongside its worst-case bound in a 31-bit array
size) into a fresh destination of capacity `compute_bound (D.length)`
succeeds with a non-negative count `k`, and decompressing those `k` bytes
into a fresh destination of capacity `D.length` returns exactly `D.length`
and reproduces `D`. -/
theorem round_trip (D : List Nat) (h : D.length ≤ 2 ^ 30) (c d : BridgeOut)
    (hc : c = nCompress okEnv (some D) 0 (D.length : Int)
      (some (List.replicate (nCompressBound (D.length : Int)).toNat 0)) 0
      (nCompressBound (D.length : Int)))
    (hd : d = nDecompress okEnv (some ((c.dstArr.getD []).take c.ret.toNat)) 0
      c.ret (some (List.replicate D.length 0)) 0 (D.length : Int)) :
    0 ≤ c.ret ∧ d.ret = (D.length : Int) ∧ d.dstArr = some D := by
  rw [nCompress_full D h] at hc
  subst hc
  simp only [Option.getD_some, Int.toNat_natCast, List.take_left] at hd
  rw [nDecompress_of_encode D h] at hd
  subst hd
  refine ⟨by positivity, rfl, rfl⟩

/-- Witness for C3 at `D = [7,7,7]`: `compute_bound 3 = 19`, compression
writes the 7-byte stream `[3,0,0,0,7,7,7]`, and decompressing it into a
3-byte destination returns 3 and recovers `[7,7,7]`. -/
theorem round_trip_witness :
    ([7, 7, 7] : List Nat).length ≤ 2 ^ 30 ∧
    (0 ≤ (⟨7, some [7, 7, 7],
        some [3, 0, 0, 0, 7, 7, 7, 0, 0, 0, 0, 0, 0, 0, 0, 0, 0, 0, 0],
        [Event.getSrc, Event.getDst, Event.native, Event.relSrc Mode.abort,
          Event.relDst Mode.commit], false⟩ : BridgeOut).ret ∧
      (⟨3, some [3, 0, 0, 0, 7, 7, 7], some [7, 7, 7],
        [Event.getSrc, Event.getDst, Event.native, Event.relSrc Mode.abort,
          Event.relDst Mode.commit], false⟩ : BridgeOut).ret
        = (([7, 7, 7] : List Nat).length : Int) ∧
      (⟨3, some [3, 0, 0, 0, 7, 7, 7], some [7, 7, 7],
        [Event.getSrc, Event.getDst, Event.native, Event.relSrc Mode.abort,
          Event.relDst Mode.commit], false⟩ : BridgeOut).dstArr = some [7, 7, 7]) :=
  ⟨by decide,
    round_trip [7, 7, 7] (by decide)
      ⟨7, some [7, 7, 7],
        some [3, 0, 0, 0, 7, 7, 7, 0, 0, 0, 0, 0, 0, 0, 0, 0, 0, 0, 0],
        [Event.getSrc, Event.getDst, Event.native, Event.relSrc Mode.abort,
          Event.relDst Mode.commit], false⟩
      ⟨3, some [3, 0, 0, 0, 7, 7, 7], some [7, 7, 7],
        [Event.getSrc, Event.getDst, Event.native, Event.relSrc Mode.abort,
          Event.relDst Mode.commit], false⟩
      (by decide) (by decide)⟩

end LZ4Jni
